import Mathlib

/-!
# Verification of the gopnik reminder bot core (src/gopnik.go)

Shallow embedding of the reminder time-resolution and scheduling engine:
the calendar validator, the 12-to-24-hour conversion, the timezone
resolver, the absolute/recurring reminder handlers, reminder removal,
the due-reminder sweeper, and the schema bootstrap.

Conventions of the embedding:
* UTC instants are modelled as `Int` Unix seconds.  Go's
  `Time.AddDate(0, 0, 1)` applied to a value whose location is UTC
  (every stored `time` is converted with `.UTC()` first) adds exactly
  one calendar day in a zone without DST transitions, i.e. 86400
  seconds.
* Go `int` values that originate from `\d{1,2}` / `\d{4}` regex
  captures or from calendar components of a `time.Time` are modelled
  as `Nat`: every call site passes non-negative values.
* `time.ParseInLocation` is kept abstract as a parameter
  `parseInLocation : WallClock → String → Int` mapping a local
  wall-clock date-time and a zone name to a UTC instant.
* Database queries and statement failures are modelled explicitly:
  a preference lookup yields `PrefLookup` (row found / no rows /
  other error), and statement-failure flags are passed as inputs.
-/

namespace Gopnik

/-- From `isLeapYear` (src/gopnik.go:42-48): divisible by 400, or
divisible by 4 and not by 100. -/
def isLeapYear (year : Nat) : Bool :=
  if year % 400 = 0 then
    true
  else
    year % 4 = 0 && year % 100 ≠ 0

/-- From `isAbsoluteDateValid` (src/gopnik.go:168-207).  Returns
`(errorMessage, ok)`; mirrors the Go control flow: day bounds, month
zero, month above twelve, the per-month day table (February adjusted
by `isLeapYear`), the year window, the 12-hour clock bound, and the
minute bound, short-circuiting at the first failure. -/
def isAbsoluteDateValid (day month year hour minute currentYear : Nat) :
    String × Bool :=
  if day = 0 ∨ day > 31 then
    ("No month has " ++ toString day ++ " days you silly goose.", false)
  else if month = 0 then
    ("There is no 0th month my dear pumpkin.", false)
  else if month > 12 then
    ("There aren't that many months!", false)
  else
    let daysInMonths : List Nat :=
      [31, if isLeapYear year then 29 else 28, 31, 30, 31, 30, 31, 31, 30, 31, 30, 31]
    if day > daysInMonths.getD (month - 1) 0 then
      ("There aren't " ++ toString day ++ " days in this month.", false)
    else
      let difference : Int := (year : Int) - (currentYear : Int)
      if difference < 0 ∨ difference > 1 then
        ("The year has to be either " ++ toString currentYear ++ " or "
          ++ toString (currentYear + 1) ++ ".", false)
      else if hour = 0 ∨ hour > 12 then
        ("The time has to follow the [12-hour clock](https://en.wikipedia.org/wiki/12-hour_clock).", false)
      else if minute > 59 then
        ("Are you sure you understand the clock?", false)
      else
        ("", true)

/-- Spec-side day count of a month: February has 29 days exactly when
the Gregorian 400/4/100 leap rule holds, else 28. -/
def specDaysInMonth (month year : Nat) : Nat :=
  if month = 2 then
    if year % 400 = 0 ∨ (year % 4 = 0 ∧ year % 100 ≠ 0) then 29 else 28
  else if month = 4 ∨ month = 6 ∨ month = 9 ∨ month = 11 then 30
  else 31

/-- Spec-side message of the first violated rule, in the claimed order:
day bounds, month, day-per-month, year, hour, minute. -/
def specFirstViolationMsg (day month year hour minute currentYear : Nat) : String :=
  if day = 0 ∨ day > 31 then
    "No month has " ++ toString day ++ " days you silly goose."
  else if month = 0 then
    "There is no 0th month my dear pumpkin."
  else if month > 12 then
    "There aren't that many months!"
  else if day > specDaysInMonth month year then
    "There aren't " ++ toString day ++ " days in this month."
  else if ¬ (year = currentYear ∨ year = currentYear + 1) then
    "The year has to be either " ++ toString currentYear ++ " or "
      ++ toString (currentYear + 1) ++ "."
  else if hour = 0 ∨ hour > 12 then
    "The time has to follow the [12-hour clock](https://en.wikipedia.org/wiki/12-hour_clock)."
  else if minute > 59 then
    "Are you sure you understand the clock?"
  else
    ""

/-- From `handleAbsoluteRegexMatch` (src/gopnik.go:277-282): 12-hour
`(hour, period)` to 24-hour conversion used before building the target
instant. -/
def absoluteDbHour (hour : Nat) (period : String) : Nat :=
  if period = "AM" ∧ hour = 12 then 0
  else if period = "PM" ∧ hour < 12 then hour + 12
  else hour

/-- From `handleRecurringRegexMatch` (src/gopnik.go:398-403): the same
conversion, duplicated in the recurring path. -/
def recurringDbHour (hour : Nat) (period : String) : Nat :=
  if period = "AM" ∧ hour = 12 then 0
  else if period = "PM" ∧ hour < 12 then hour + 12
  else hour

lemma isLeapYear_iff (y : Nat) :
    isLeapYear y = true ↔ (y % 400 = 0 ∨ (y % 4 = 0 ∧ y % 100 ≠ 0)) := by
  unfold isLeapYear
  split
  · simp_all
  · simp_all [Bool.and_eq_true, decide_eq_true_eq]

lemma daysTable_getD (m y : Nat) (h1 : 1 ≤ m) (h2 : m ≤ 12) :
    ([31, if isLeapYear y then 29 else 28,
      31, 30, 31, 30, 31, 31, 30, 31, 30, 31] : List Nat).getD (m - 1) 0
      = specDaysInMonth m y := by
  have hfeb : (if isLeapYear y then 29 else 28)
      = specDaysInMonth 2 y := by
    have h := isLeapYear_iff y
    by_cases hp : (y % 400 = 0 ∨ (y % 4 = 0 ∧ y % 100 ≠ 0))
    · simp [specDaysInMonth, hp, h.mpr hp]
    · have hf : isLeapYear y = false := by
        rcases hb : isLeapYear y with _ | _
        · rfl
        · exact absurd (h.mp hb) hp
      simp [specDaysInMonth, hp, hf]
  interval_cases m <;> simp [specDaysInMonth, hfeb]

/-- Result of the `SELECT * FROM TimezonePreferences WHERE who=?` row
lookup: a row was found, the query reported `sql.ErrNoRows`, or it
failed with some other error. -/
inductive PrefLookup
  | noRows
  | found (pref : String)
  | dbError
deriving DecidableEq, Repr

/-- A representative finite zone database standing in for the IANA
database consulted by Go `time.LoadLocation`. -/
def ianaZoneNames : List String :=
  ["Europe/Warsaw", "America/New_York", "Antarctica/South_Pole", "Asia/Tokyo"]

/-- Models Go `time.LoadLocation`: the names `""` and `"UTC"` load the
UTC location; a known IANA identifier loads itself; any other name is
an error (`none`). -/
def loadLocation (name : String) : Option String :=
  if name = "" ∨ name = "UTC" then some "UTC"
  else if name ∈ ianaZoneNames then some name
  else none

/-- From `resolveLocation` (src/gopnik.go:213-230).  A non-empty
explicit match is loaded directly; otherwise the stored preference is
queried: on `sql.ErrNoRows` the default `Europe/Warsaw` is loaded, and
on any other outcome `existingTzPreference` is loaded — when the
lookup failed with a non-`ErrNoRows` error, `Scan` left
`existingTzPreference` at its zero value `""`. -/
def resolveLocation (locationMatch : String) (prefLookup : PrefLookup) :
    Option String :=
  if locationMatch.length > 0 then
    loadLocation locationMatch
  else
    match prefLookup with
    | .noRows => loadLocation "Europe/Warsaw"
    | .found pref => loadLocation pref
    | .dbError => loadLocation ""

/-- A row of the Reminders table. -/
structure Reminder where
  id : Nat
  who : String
  time : Int
  toRemind : String
  recurring : Bool
deriving DecidableEq, Repr

/-- `Time.AddDate(0, 0, 1)` on a UTC-located instant advances it by
exactly one calendar day, i.e. 86400 seconds (UTC has no DST). -/
def secondsPerDay : Int := 86400

/-- A local wall-clock date-time, as formatted into the
`"%d-%02d-%02d %02d:%02d:%02d"` string handed to `ParseInLocation`. -/
structure WallClock where
  year : Nat
  month : Nat
  day : Nat
  hour : Nat
  minute : Nat
deriving DecidableEq, Repr

/-- Character-level body of `replaceMyYour`: scan left to right,
replace each non-overlapping occurrence of `" my "`, resuming after
the replaced segment, as `strings.Replace` does with count `-1`. -/
def replaceMyYourChars : List Char → List Char
  | ' ' :: 'm' :: 'y' :: ' ' :: rest =>
    ' ' :: 'y' :: 'o' :: 'u' :: 'r' :: ' ' :: replaceMyYourChars rest
  | c :: rest => c :: replaceMyYourChars rest
  | [] => []

/-- Models `strings.Replace(s, " my ", " your ", -1)` (used at
src/gopnik.go:301, 310, 354, 421): every non-overlapping occurrence of
`" my "` becomes `" your "`. -/
def replaceMyYour (s : String) : String :=
  ⟨replaceMyYourChars s.data⟩

/-- Observable outcome of `handleAbsoluteRegexMatch`. -/
inductive AbsOutcome
  | tooLong
  | locationError
  | invalidDate (msg : String)
  | pastDate
  | inserted
deriving DecidableEq, Repr

/-- From `handleAbsoluteRegexMatch` (src/gopnik.go:232-311).
`parseInLocation` abstracts Go `time.ParseInLocation` (wall clock and
zone name to UTC instant); `nowUTC` is `time.Now().UTC()` (the
comparison at line 296 is between `.UTC()` values, and `.In(location)`
does not change the instant); `currentYear` is the year of
`time.Now().In(location)`; `nextId` is the id the store assigns to the
inserted row.  `yearOpt`/`minuteOpt` are the optional regex captures,
defaulted as at lines 252-266. -/
def handleAbsoluteRegexMatch (parseInLocation : WallClock → String → Int)
    (prefLookup : PrefLookup) (nowUTC : Int) (currentYear : Nat) (nextId : Nat)
    (author : String) (day month : Nat) (yearOpt : Option Nat) (hour : Nat)
    (minuteOpt : Option Nat) (period : String) (locationMatch : String)
    (toRemind : String) (store : List Reminder) : AbsOutcome × List Reminder :=
  if toRemind.length > 1500 then (.tooLong, store)
  else
    match resolveLocation locationMatch prefLookup with
    | none => (.locationError, store)
    | some location =>
      let year := yearOpt.getD currentYear
      let minute := minuteOpt.getD 0
      match isAbsoluteDateValid day month year hour minute currentYear with
      | (msg, false) => (.invalidDate msg, store)
      | (_, true) =>
        let dbHour := absoluteDbHour hour period
        let targetTime := parseInLocation ⟨year, month, day, dbHour, minute⟩ location
        if targetTime < nowUTC then (.pastDate, store)
        else
          (.inserted,
            store ++ [⟨nextId, author, targetTime,
              replaceMyYour toRemind, false⟩])

/-- Observable outcome of `handleRecurringRegexMatch`. -/
inductive RecOutcome
  | tooLong
  | locationError
  | invalidDate (msg : String)
  | inserted
deriving DecidableEq, Repr

/-- From `handleRecurringRegexMatch` (src/gopnik.go:365-431).
`curDay`/`curMonth`/`curYear` are the calendar components of
`time.Now().In(location)`; the validator is called on today's date so
only the time-of-day fields are effectively checked.  After converting
today's wall-clock occurrence to UTC, an already-past instant is
advanced by one calendar day (line 416-419). -/
def handleRecurringRegexMatch (parseInLocation : WallClock → String → Int)
    (prefLookup : PrefLookup) (nowUTC : Int) (curDay curMonth curYear : Nat)
    (nextId : Nat) (author : String) (hour : Nat) (minuteOpt : Option Nat)
    (period : String) (locationMatch : String) (toRemind : String)
    (store : List Reminder) : RecOutcome × List Reminder :=
  if toRemind.length > 1500 then (.tooLong, store)
  else
    match resolveLocation locationMatch prefLookup with
    | none => (.locationError, store)
    | some location =>
      let minute := minuteOpt.getD 0
      match isAbsoluteDateValid curDay curMonth curYear hour minute curYear with
      | (msg, false) => (.invalidDate msg, store)
      | (_, true) =>
        let dbHour := recurringDbHour hour period
        let targetTime := parseInLocation ⟨curYear, curMonth, curDay, dbHour, minute⟩ location
        let finalTime :=
          if targetTime < nowUTC then targetTime + secondsPerDay else targetTime
        (.inserted,
          store ++ [⟨nextId, author, finalTime,
            replaceMyYour toRemind, true⟩])

/-- `math.MaxUint32`, the upper bound checked at src/gopnik.go:142. -/
def maxUint32 : Nat := 4294967295

/-- From `handleRmreminderRegexMatch` (src/gopnik.go:140-166).
Returns the replies sent (in order) and the resulting store.
`deleteFails` models the `DELETE FROM Reminders WHERE id=?` statement
failing: the error branch at lines 160-163 replies with the failure
message but does not return, so the success reply at line 165 is sent
afterwards regardless. -/
def handleRmreminderRegexMatch (store : List Reminder) (author : String)
    (id : Nat) (deleteFails : Bool) : List String × List Reminder :=
  if id > maxUint32 then
    (["The ID is too big, has to be between 0 and " ++ toString maxUint32 ++ "."],
      store)
  else
    match store.find? (fun r => r.id == id) with
    | none =>
      (["There isn't a reminder with that ID. Make sure you provided the correct one."],
        store)
    | some r =>
      if author ≠ r.who then
        (["You cannot remove someone else's reminders!"], store)
      else if deleteFails then
        (["Something went wrong while deleting the reminder. Check the stderr output.",
          "Successfully deleted the reminder."], store)
      else
        (["Successfully deleted the reminder."],
          store.filter (fun x => !(x.id == id)))

/-- The `rowToUpdate` record of src/gopnik.go:27-31. -/
structure RowToUpdate where
  id : Nat
  newTime : Int
  who : String
deriving DecidableEq, Repr

/-- The row loop of `handleReminders` (src/gopnik.go:537-564): for each
row, `currentTime.UTC().After(time)` (strict) decides firing; a fired
row is dispatched as `(who, toRemind)`, then marked for update with its
pre-fire time advanced one day if recurring, else marked for deletion. -/
def sweepScan (now : Int) :
    List Reminder → List (String × String) × List Nat × List RowToUpdate
  | [] => ([], [], [])
  | r :: rest =>
    let prev := sweepScan now rest
    if r.time < now then
      if r.recurring then
        ((r.who, r.toRemind) :: prev.1, prev.2.1,
          ⟨r.id, r.time + secondsPerDay, r.who⟩ :: prev.2.2)
      else
        ((r.who, r.toRemind) :: prev.1, r.id :: prev.2.1, prev.2.2)
    else
      prev

/-- Effect of the batched `DELETE FROM Reminders WHERE id IN (...)`
(src/gopnik.go:572-577).  With an empty id list the generated `IN ()`
is malformed and the statement fails without deleting anything, which
coincides with filtering by the empty list. -/
def applyDeletes (dels : List Nat) (store : List Reminder) : List Reminder :=
  store.filter (fun r => !(dels.contains r.id))

/-- Effect of the per-row `UPDATE Reminders SET time=? WHERE id=?`
statements (src/gopnik.go:579-589), applied in order. -/
def applyUpdates (upds : List RowToUpdate) (store : List Reminder) :
    List Reminder :=
  upds.foldl
    (fun s u => s.map (fun r => if r.id = u.id then { r with time := u.newTime } else r))
    store

/-- One tick of `handleReminders` (src/gopnik.go:523-591): scan all
rows, dispatch, then apply the batched deletions followed by the
individual updates. -/
def sweepTick (now : Int) (store : List Reminder) :
    List (String × String) × List Reminder :=
  let scan := sweepScan now store
  (scan.1, applyUpdates scan.2.2 (applyDeletes scan.2.1 store))

/-- Schema state of the SQLite file: which tables and columns exist,
and the `PRAGMA user_version` counter. -/
structure DbState where
  remindersTable : Bool
  tzPreferencesTable : Bool
  recurringColumn : Bool
  userVersion : Nat
deriving DecidableEq, Repr

/-- The individual statements of `bootstrapDb` that can fail. -/
inductive MigStep
  | createReminders
  | createTzPreferences
  | setVersion1
  | commit1
  | addRecurring
  | setVersion2
  | commit2
deriving DecidableEq, Repr

/-- The `case 1` migration of `bootstrapDb` (src/gopnik.go:649-668):
inside a transaction, add the `recurring` column and set
`user_version = 2`; any failure rolls the transaction back. -/
def migrateFrom1 (fails : MigStep → Bool) (db : DbState) : DbState × Bool :=
  if fails .addRecurring then (db, false)
  else if fails .setVersion2 then (db, false)
  else if fails .commit2 then (db, false)
  else ({ db with recurringColumn := true, userVersion := 2 }, true)

/-- From `bootstrapDb` (src/gopnik.go:593-672).  `fails` says which
statements fail; the returned flag is success.  In `case 0` the
Reminders CREATE and the version bump run on the transaction `tx`, but
the TimezonePreferences CREATE is executed on the raw handle
(`db.Exec`, line 628), so its effect is applied immediately and is not
undone by the deferred rollback; `case 0` falls through to `case 1` on
success. -/
def bootstrapDb (fails : MigStep → Bool) (db0 : DbState) : DbState × Bool :=
  if db0.userVersion = 0 then
    if fails .createReminders then (db0, false)
    else if fails .createTzPreferences then (db0, false)
    else
      let dbMid := { db0 with tzPreferencesTable := true }
      if fails .setVersion1 then (dbMid, false)
      else if fails .commit1 then (dbMid, false)
      else
        migrateFrom1 fails { dbMid with remindersTable := true, userVersion := 1 }
  else if db0.userVersion = 1 then
    migrateFrom1 fails db0
  else (db0, true)

/-- Pointwise effect on one row of the sequence of UPDATE statements
applied by `applyUpdates`. -/
def updateFun (upds : List RowToUpdate) (r : Reminder) : Reminder :=
  upds.foldl
    (fun x u => if x.id = u.id then { x with time := u.newTime } else x) r

lemma append_right_ne_empty (s t : String) (ht : 0 < t.length) :
    s ++ t ≠ "" := by
  intro hc
  have hlen := congrArg String.length hc
  rw [String.length_append, String.length_empty] at hlen
  omega

lemma specDaysInMonth_le (m y : Nat) : specDaysInMonth m y ≤ 31 := by
  unfold specDaysInMonth
  split_ifs <;> omega

/-- C4: the calendar validator returns `ok = true` exactly when the
day is within the month's day count (February per the Gregorian
400/4/100 leap rule), the month is in `[1,12]`, the year is the
current or next year, the hour is in `[1,12]` and the minute is in
`[0,59]`; otherwise it returns `ok = false` together with the message
of the first violated rule in the order day bounds, month,
day-per-month, year, hour, minute, and the message is empty exactly on
success. -/
theorem c4_validator_contract (d m y h mi cy : Nat) :
    ((isAbsoluteDateValid d m y h mi cy).2 = true ↔
      (1 ≤ d ∧ d ≤ specDaysInMonth m y ∧ 1 ≤ m ∧ m ≤ 12 ∧
        (y = cy ∨ y = cy + 1) ∧ 1 ≤ h ∧ h ≤ 12 ∧ mi ≤ 59)) ∧
    ((isAbsoluteDateValid d m y h mi cy).1
      = specFirstViolationMsg d m y h mi cy) ∧
    ((isAbsoluteDateValid d m y h mi cy).2 = false →
      (isAbsoluteDateValid d m y h mi cy).1 ≠ "") := by
  have hle := specDaysInMonth_le m y
  unfold isAbsoluteDateValid specFirstViolationMsg
  by_cases h1 : d = 0 ∨ d > 31
  · simp only [if_pos h1]
    exact ⟨by simp; omega, trivial,
      fun _ => append_right_ne_empty _ _ (by decide)⟩
  · simp only [if_neg h1]
    by_cases h2 : m = 0
    · simp only [if_pos h2]
      exact ⟨by simp; omega, trivial, fun _ => by decide⟩
    · simp only [if_neg h2]
      by_cases h3 : m > 12
      · simp only [if_pos h3]
        exact ⟨by simp; omega, trivial, fun _ => by decide⟩
      · simp only [if_neg h3]
        rw [daysTable_getD m y (by omega) (by omega)]
        by_cases h4 : d > specDaysInMonth m y
        · simp only [if_pos h4]
          exact ⟨by simp; omega, trivial,
            fun _ => append_right_ne_empty _ _ (by decide)⟩
        · simp only [if_neg h4]
          by_cases h5 : ((y : Int) - (cy : Int) < 0 ∨ (y : Int) - (cy : Int) > 1)
          · have h5' : ¬ (y = cy ∨ y = cy + 1) := by omega
            simp only [if_pos h5, if_pos h5']
            exact ⟨by simp; omega, trivial,
              fun _ => append_right_ne_empty _ _ (by decide)⟩
          · have h5' : (y = cy ∨ y = cy + 1) := by omega
            simp only [if_neg h5, if_neg (not_not_intro h5')]
            by_cases h6 : h = 0 ∨ h > 12
            · simp only [if_pos h6]
              exact ⟨by simp; omega, trivial, fun _ => by decide⟩
            · simp only [if_neg h6]
              by_cases h7 : mi > 59
              · simp only [if_pos h7]
                exact ⟨by simp; omega, trivial, fun _ => by decide⟩
              · simp only [if_neg h7]
                exact ⟨by simp; omega, trivial, by simp⟩

/-- Witness for `c4_validator_contract`: at `(30, 2, 2024, 5, 0, 2024)`
the validator fails and its message is non-empty. -/
theorem c4_validator_contract_witness :
    (isAbsoluteDateValid 30 2 2024 5 0 2024).2 = false ∧
    (isAbsoluteDateValid 30 2 2024 5 0 2024).1 ≠ "" :=
  ⟨by decide, (c4_validator_contract 30 2 2024 5 0 2024).2.2 (by decide)⟩

/-- C9: the 12-to-24-hour conversion maps `(12, AM)` to 0, adds 12 to
PM hours below 12 and leaves other values unchanged; the Absolute and
Recurring paths use identical conversions; in particular
`(12,AM)→0`, `(12,PM)→12`, `(5,AM)→5`, `(5,PM)→17` in both paths. -/
theorem c9_db_hour_conversion :
    (∀ h p, absoluteDbHour h p =
      (if p = "AM" ∧ h = 12 then 0
       else if p = "PM" ∧ h < 12 then h + 12
       else h)) ∧
    (∀ h p, recurringDbHour h p = absoluteDbHour h p) ∧
    absoluteDbHour 12 "AM" = 0 ∧ absoluteDbHour 12 "PM" = 12 ∧
    absoluteDbHour 5 "AM" = 5 ∧ absoluteDbHour 5 "PM" = 17 ∧
    recurringDbHour 12 "AM" = 0 ∧ recurringDbHour 12 "PM" = 12 ∧
    recurringDbHour 5 "AM" = 5 ∧ recurringDbHour 5 "PM" = 17 := by
  refine ⟨fun h p => rfl, fun h p => rfl, ?_, ?_, ?_, ?_, ?_, ?_, ?_, ?_⟩ <;> decide

lemma length_pos_of_ne_empty (s : String) (hs : s ≠ "") : 0 < s.length := by
  rcases s with ⟨data⟩
  cases data with
  | nil => exact absurd rfl hs
  | cons a l => simp [String.length]

/-- C3 counterexample: with no explicit zone and a preference lookup
failing with an error other than `sql.ErrNoRows`, `resolveLocation`
does not return an error — `Scan` leaves the scanned preference at its
zero value `""`, and `time.LoadLocation("")` succeeds with UTC, so UTC
is silently substituted. -/
theorem c3_counterexample_lookup_failure_yields_utc :
    resolveLocation "" PrefLookup.dbError = some "UTC" ∧
    resolveLocation "" PrefLookup.dbError ≠ none :=
  ⟨rfl, by decide⟩

/-- C3 (amended): a non-empty explicit zone argument is resolved
directly; with no explicit argument, a found stored preference is
resolved, and a no-rows lookup falls back to Europe/Warsaw; unknown or
malformed identifiers are an error (`none`) and a successful load of a
non-empty name never yields a different zone; however, a preference
lookup failing with an error other than no-rows resolves the
zero-value identifier and silently yields UTC instead of an error. -/
theorem c3_resolve_precedence :
    (∀ lm lk, lm ≠ "" → resolveLocation lm lk = loadLocation lm) ∧
    resolveLocation "" PrefLookup.noRows = some "Europe/Warsaw" ∧
    (∀ p, resolveLocation "" (PrefLookup.found p) = loadLocation p) ∧
    resolveLocation "" PrefLookup.dbError = some "UTC" ∧
    (∀ n z, loadLocation n = some z → z = n ∨ n = "") := by
  refine ⟨?_, by decide, fun p => rfl, by decide, ?_⟩
  · intro lm lk hlm
    unfold resolveLocation
    rw [if_pos (length_pos_of_ne_empty lm hlm)]
  · intro n z hz
    unfold loadLocation at hz
    split_ifs at hz with h1 h2
    · injection hz with hz
      rcases h1 with h | h
      · exact Or.inr h
      · exact Or.inl (by rw [← hz, h])
    · injection hz with hz
      exact Or.inl hz.symm

/-- Witness for `c3_resolve_precedence`: the explicit argument
`Asia/Tokyo` is resolved directly, bypassing the preference lookup. -/
theorem c3_resolve_precedence_witness :
    ("Asia/Tokyo" : String) ≠ "" ∧
    resolveLocation "Asia/Tokyo" PrefLookup.dbError = loadLocation "Asia/Tokyo" :=
  ⟨by decide, c3_resolve_precedence.1 "Asia/Tokyo" PrefLookup.dbError (by decide)⟩

/-- C8: evaluating the bootstrap at the failing input.  On a fresh
store where the `PRAGMA user_version = 1` statement fails, the 0→1
step reports failure and its transaction rolls back, yet the
TimezonePreferences table remains created — it was created through the
raw handle (`db.Exec`, src/gopnik.go:628), outside the transaction, so
the step is not atomic.  With no failures a fresh store passes through
both migrations to version 2, and re-running bootstrap at version 2 is
a no-op. -/
theorem c8_bootstrap_step_not_atomic :
    bootstrapDb (fun s => s == MigStep.setVersion1) ⟨false, false, false, 0⟩
      = (⟨false, true, false, 0⟩, false) ∧
    bootstrapDb (fun _ => false) ⟨false, false, false, 0⟩
      = (⟨true, true, true, 2⟩, true) ∧
    bootstrapDb (fun _ => false) ⟨true, true, true, 2⟩
      = (⟨true, true, true, 2⟩, true) :=
  ⟨rfl, rfl, rfl⟩

/-- C6: past-instant rejection with atomicity: an Absolute request
whose fully resolved UTC target instant is strictly before now is
rejected with the past-date outcome and the store is unchanged; a
target at or after now is not rejected by this rule — it is
inserted. -/
theorem c6_absolute_past_rejection
    (pil : WallClock → String → Int) (lk : PrefLookup) (now : Int)
    (cy nid : Nat) (author : String) (d mo : Nat) (yo : Option Nat) (h : Nat)
    (mi : Option Nat) (per lm tr : String) (store : List Reminder)
    (loc : String)
    (hlen : tr.length ≤ 1500)
    (hloc : resolveLocation lm lk = some loc)
    (hvalid : (isAbsoluteDateValid d mo (yo.getD cy) h (mi.getD 0) cy).2 = true) :
    (pil ⟨yo.getD cy, mo, d, absoluteDbHour h per, mi.getD 0⟩ loc < now →
      handleAbsoluteRegexMatch pil lk now cy nid author d mo yo h mi per lm tr store
        = (AbsOutcome.pastDate, store)) ∧
    (¬ pil ⟨yo.getD cy, mo, d, absoluteDbHour h per, mi.getD 0⟩ loc < now →
      handleAbsoluteRegexMatch pil lk now cy nid author d mo yo h mi per lm tr store
        = (AbsOutcome.inserted,
            store ++ [⟨nid, author,
              pil ⟨yo.getD cy, mo, d, absoluteDbHour h per, mi.getD 0⟩ loc,
              replaceMyYour tr, false⟩])) := by
  have hlen' : ¬ (1500 < tr.length) := by omega
  rcases hsplit : isAbsoluteDateValid d mo (yo.getD cy) h (mi.getD 0) cy with ⟨msg, ok⟩
  have hok : ok = true := by rw [hsplit] at hvalid; exact hvalid
  subst hok
  constructor
  · intro hpast
    simp [handleAbsoluteRegexMatch, hlen', hloc, hsplit, hpast]
  · intro hfut
    simp [handleAbsoluteRegexMatch, hlen', hloc, hsplit, hfut]

/-- Witness for `c6_absolute_past_rejection`: a request resolving to
instant 12 with now = 0 is not past-rejected and is inserted. -/
theorem c6_absolute_past_rejection_witness :
    ("x" : String).length ≤ 1500 ∧
    resolveLocation "" PrefLookup.noRows = some "Europe/Warsaw" ∧
    (isAbsoluteDateValid 23 12 ((none : Option Nat).getD 2024) 12
      ((none : Option Nat).getD 0) 2024).2 = true ∧
    handleAbsoluteRegexMatch (fun w _ => (w.hour : Int)) PrefLookup.noRows 0 2024 1 "u"
      23 12 none 12 none "PM" "" "x" []
      = (AbsOutcome.inserted, [⟨1, "u", 12, "x", false⟩]) :=
  ⟨by decide, by decide, by decide, by
    rw [(c6_absolute_past_rejection (fun w _ => (w.hour : Int)) PrefLookup.noRows 0 2024
      1 "u" 23 12 none 12 none "PM" "" "x" [] "Europe/Warsaw"
      (by decide) (by decide) (by decide)).2 (by decide)]
    decide⟩

/-- C5: recurring first-fire rollover: with resolution and validation
succeeding, if today's occurrence of the requested time-of-day
(converted to UTC) is strictly before now, the persisted time is that
instant advanced by one calendar day; otherwise it is today's
occurrence itself. -/
theorem c5_recurring_rollover
    (pil : WallClock → String → Int) (lk : PrefLookup) (now : Int)
    (cd cm cyr nid : Nat) (author : String) (h : Nat) (mi : Option Nat)
    (per lm tr : String) (store : List Reminder) (loc : String)
    (hlen : tr.length ≤ 1500)
    (hloc : resolveLocation lm lk = some loc)
    (hvalid : (isAbsoluteDateValid cd cm cyr h (mi.getD 0) cyr).2 = true) :
    (pil ⟨cyr, cm, cd, recurringDbHour h per, mi.getD 0⟩ loc < now →
      handleRecurringRegexMatch pil lk now cd cm cyr nid author h mi per lm tr store
        = (RecOutcome.inserted,
            store ++ [⟨nid, author,
              pil ⟨cyr, cm, cd, recurringDbHour h per, mi.getD 0⟩ loc + secondsPerDay,
              replaceMyYour tr, true⟩])) ∧
    (¬ pil ⟨cyr, cm, cd, recurringDbHour h per, mi.getD 0⟩ loc < now →
      handleRecurringRegexMatch pil lk now cd cm cyr nid author h mi per lm tr store
        = (RecOutcome.inserted,
            store ++ [⟨nid, author,
              pil ⟨cyr, cm, cd, recurringDbHour h per, mi.getD 0⟩ loc,
              replaceMyYour tr, true⟩])) := by
  have hlen' : ¬ (1500 < tr.length) := by omega
  rcases hsplit : isAbsoluteDateValid cd cm cyr h (mi.getD 0) cyr with ⟨msg, ok⟩
  have hok : ok = true := by rw [hsplit] at hvalid; exact hvalid
  subst hok
  constructor
  · intro hpast
    simp [handleRecurringRegexMatch, hlen', hloc, hsplit, hpast]
  · intro hfut
    simp [handleRecurringRegexMatch, hlen', hloc, hsplit, hfut]

/-- Witness for `c5_recurring_rollover`: an occurrence at instant 5
with now = 10 is already past, so the stored time is advanced by one
day to 86405. -/
theorem c5_recurring_rollover_witness :
    ("x" : String).length ≤ 1500 ∧
    resolveLocation "" PrefLookup.noRows = some "Europe/Warsaw" ∧
    (isAbsoluteDateValid 23 12 2024 5 ((none : Option Nat).getD 0) 2024).2 = true ∧
    handleRecurringRegexMatch (fun w _ => (w.hour : Int)) PrefLookup.noRows 10
      23 12 2024 1 "u" 5 none "AM" "" "x" []
      = (RecOutcome.inserted, [⟨1, "u", 86405, "x", true⟩]) :=
  ⟨by decide, by decide, by decide, by
    rw [(c5_recurring_rollover (fun w _ => (w.hour : Int)) PrefLookup.noRows 10
      23 12 2024 1 "u" 5 none "AM" "" "x" [] "Europe/Warsaw"
      (by decide) (by decide) (by decide)).1 (by decide)]
    decide⟩

/-- C7: owner-only deletion.  With a valid id: when no reminder with
the id exists the reply is the distinct nonexistent-id message and the
store is unchanged; when the reminder belongs to a different user the
request is rejected and the store is unchanged; when the requester
owns it (and the DELETE statement succeeds) exactly that one row is
removed and every other row is untouched.  The two rejection messages
are distinct. -/
theorem c7_owner_only_deletion (store : List Reminder) (author : String)
    (id : Nat) (hid : id ≤ maxUint32)
    (hnd : (store.map (fun r => r.id)).Nodup) :
    ((∀ r ∈ store, r.id ≠ id) →
      handleRmreminderRegexMatch store author id false
        = (["There isn't a reminder with that ID. Make sure you provided the correct one."],
            store)) ∧
    (∀ r, store.find? (fun x => x.id == id) = some r → author ≠ r.who →
      handleRmreminderRegexMatch store author id false
        = (["You cannot remove someone else's reminders!"], store)) ∧
    (∀ r, store.find? (fun x => x.id == id) = some r → author = r.who →
      (handleRmreminderRegexMatch store author id false).1
          = ["Successfully deleted the reminder."] ∧
        r ∉ (handleRmreminderRegexMatch store author id false).2 ∧
        (∀ x ∈ store, x ≠ r →
          x ∈ (handleRmreminderRegexMatch store author id false).2) ∧
        (∀ x ∈ (handleRmreminderRegexMatch store author id false).2, x ∈ store)) ∧
    ("There isn't a reminder with that ID. Make sure you provided the correct one."
      ≠ "You cannot remove someone else's reminders!") := by
  have hid' : ¬ (maxUint32 < id) := by omega
  refine ⟨?_, ?_, ?_, by decide⟩
  · intro hnone
    have hfind : store.find? (fun x => x.id == id) = none := by
      rw [List.find?_eq_none]
      intro x hx
      simpa using hnone x hx
    simp [handleRmreminderRegexMatch, hid', hfind]
  · intro r hfind hauth
    simp [handleRmreminderRegexMatch, hid', hfind, hauth]
  · intro r hfind hauth
    have hrid : r.id = id := by
      have := List.find?_some hfind
      simpa using this
    have hrmem : r ∈ store := List.mem_of_find?_eq_some hfind
    have hres : handleRmreminderRegexMatch store author id false
        = (["Successfully deleted the reminder."],
            store.filter (fun x => !(x.id == id))) := by
      simp [handleRmreminderRegexMatch, hid', hfind, hauth]
    rw [hres]
    refine ⟨rfl, ?_, ?_, ?_⟩
    · intro hc
      have := (List.mem_filter.mp hc).2
      simp [hrid] at this
    · intro x hx hne
      have hxid : x.id ≠ id := by
        intro hxe
        exact hne (List.inj_on_of_nodup_map hnd hx hrmem (by rw [hxe, hrid]))
      exact List.mem_filter.mpr ⟨hx, by simpa using hxid⟩
    · intro x hx
      exact (List.mem_filter.mp hx).1

/-- Witness for `c7_owner_only_deletion`: the owner of reminder 1
deletes it; the success reply is sent and the row is gone. -/
theorem c7_owner_only_deletion_witness :
    (1 : Nat) ≤ maxUint32 ∧
    (([⟨1, "u", 0, "x", false⟩, ⟨2, "v", 5, "y", true⟩] : List Reminder).map
      (fun r => r.id)).Nodup ∧
    (handleRmreminderRegexMatch [⟨1, "u", 0, "x", false⟩, ⟨2, "v", 5, "y", true⟩]
        "u" 1 false).1 = ["Successfully deleted the reminder."] ∧
    (⟨1, "u", 0, "x", false⟩ : Reminder)
      ∉ (handleRmreminderRegexMatch [⟨1, "u", 0, "x", false⟩, ⟨2, "v", 5, "y", true⟩]
          "u" 1 false).2 :=
  ⟨by decide, by decide,
    ((c7_owner_only_deletion [⟨1, "u", 0, "x", false⟩, ⟨2, "v", 5, "y", true⟩]
        "u" 1 (by decide) (by decide)).2.2.1 ⟨1, "u", 0, "x", false⟩
        (by decide) rfl).1,
    ((c7_owner_only_deletion [⟨1, "u", 0, "x", false⟩, ⟨2, "v", 5, "y", true⟩]
        "u" 1 (by decide) (by decide)).2.2.1 ⟨1, "u", 0, "x", false⟩
        (by decide) rfl).2.1⟩

/-- C10: when the requester owns an existing reminder id, the success
reply is sent unconditionally; when the DELETE statement fails, both
the failure reply and the success reply are sent and the row remains
in the store, so a success reply does not imply the row was
removed. -/
theorem c10_success_reply_unconditional (store : List Reminder)
    (author : String) (id : Nat) (r : Reminder) (hid : id ≤ maxUint32)
    (hfind : store.find? (fun x => x.id == id) = some r)
    (hauth : author = r.who) :
    (∀ deleteFails,
      "Successfully deleted the reminder."
        ∈ (handleRmreminderRegexMatch store author id deleteFails).1) ∧
    (handleRmreminderRegexMatch store author id true).1
      = ["Something went wrong while deleting the reminder. Check the stderr output.",
         "Successfully deleted the reminder."] ∧
    (handleRmreminderRegexMatch store author id true).2 = store := by
  have hid' : ¬ (maxUint32 < id) := by omega
  refine ⟨?_, ?_, ?_⟩
  · intro deleteFails
    cases deleteFails with
    | false => simp [handleRmreminderRegexMatch, hid', hfind, hauth]
    | true => simp [handleRmreminderRegexMatch, hid', hfind, hauth]
  · simp [handleRmreminderRegexMatch, hid', hfind, hauth]
  · simp [handleRmreminderRegexMatch, hid', hfind, hauth]

/-- Witness for `c10_success_reply_unconditional`: with a failing
DELETE, the owner still gets the success reply after the failure
reply, and the row is still present. -/
theorem c10_success_reply_unconditional_witness :
    (1 : Nat) ≤ maxUint32 ∧
    (([⟨1, "u", 0, "x", false⟩] : List Reminder).find? (fun x => x.id == 1)
      = some ⟨1, "u", 0, "x", false⟩) ∧
    (handleRmreminderRegexMatch [⟨1, "u", 0, "x", false⟩] "u" 1 true).1
      = ["Something went wrong while deleting the reminder. Check the stderr output.",
         "Successfully deleted the reminder."] ∧
    (handleRmreminderRegexMatch [⟨1, "u", 0, "x", false⟩] "u" 1 true).2
      = [⟨1, "u", 0, "x", false⟩] :=
  ⟨by decide, by decide,
    (c10_success_reply_unconditional [⟨1, "u", 0, "x", false⟩] "u" 1
      ⟨1, "u", 0, "x", false⟩ (by decide) (by decide) rfl).2.1,
    (c10_success_reply_unconditional [⟨1, "u", 0, "x", false⟩] "u" 1
      ⟨1, "u", 0, "x", false⟩ (by decide) (by decide) rfl).2.2⟩

lemma sweepScan_msgs (now : Int) (store : List Reminder) :
    (sweepScan now store).1
      = (store.filter (fun r => decide (r.time < now))).map
          (fun r => (r.who, r.toRemind)) := by
  induction store with
  | nil => rfl
  | cons r rest ih =>
    by_cases hf : r.time < now
    · by_cases hr : r.recurring = true
      · simp [sweepScan, hf, hr, ih]
      · simp [sweepScan, hf, hr, ih]
    · simp [sweepScan, hf, ih]

lemma sweepScan_dels (now : Int) (store : List Reminder) :
    (sweepScan now store).2.1
      = (store.filter (fun r => decide (r.time < now) && !r.recurring)).map
          (fun r => r.id) := by
  induction store with
  | nil => rfl
  | cons r rest ih =>
    by_cases hf : r.time < now
    · by_cases hr : r.recurring = true
      · simp [sweepScan, hf, hr, ih]
      · simp [sweepScan, hf, hr, ih]
    · simp [sweepScan, hf, ih]

lemma sweepScan_upds (now : Int) (store : List Reminder) :
    (sweepScan now store).2.2
      = (store.filter (fun r => decide (r.time < now) && r.recurring)).map
          (fun r => (⟨r.id, r.time + secondsPerDay, r.who⟩ : RowToUpdate)) := by
  induction store with
  | nil => rfl
  | cons r rest ih =>
    by_cases hf : r.time < now
    · by_cases hr : r.recurring = true
      · simp [sweepScan, hf, hr, ih]
      · simp [sweepScan, hf, hr, ih]
    · simp [sweepScan, hf, ih]

lemma applyUpdates_eq_map (upds : List RowToUpdate) (store : List Reminder) :
    applyUpdates upds store = store.map (updateFun upds) := by
  induction upds generalizing store with
  | nil =>
    show store = store.map (updateFun [])
    have hfun : updateFun ([] : List RowToUpdate) = fun r => r := rfl
    rw [hfun, List.map_id']
  | cons u us ih =>
    show applyUpdates us
        (store.map fun x => if x.id = u.id then { x with time := u.newTime } else x)
      = store.map (updateFun (u :: us))
    rw [ih, List.map_map]
    rfl

lemma updateFun_id (upds : List RowToUpdate) (r : Reminder) :
    (updateFun upds r).id = r.id := by
  induction upds generalizing r with
  | nil => rfl
  | cons u us ih =>
    show (updateFun us (if r.id = u.id then { r with time := u.newTime } else r)).id
      = r.id
    rw [ih]
    by_cases h : r.id = u.id <;> simp [h]

lemma updateFun_of_not_mem (upds : List RowToUpdate) (r : Reminder)
    (h : ∀ u ∈ upds, u.id ≠ r.id) : updateFun upds r = r := by
  induction upds with
  | nil => rfl
  | cons u us ih =>
    have hu : u.id ≠ r.id := h u (by simp)
    show updateFun us (if r.id = u.id then { r with time := u.newTime } else r) = r
    rw [if_neg (fun hc => hu hc.symm)]
    exact ih (fun v hv => h v (by simp [hv]))

lemma updateFun_of_mem (upds : List RowToUpdate) (r : Reminder) (u0 : RowToUpdate)
    (hnd : (upds.map (fun u => u.id)).Nodup) (hmem : u0 ∈ upds)
    (hid : u0.id = r.id) :
    updateFun upds r = { r with time := u0.newTime } := by
  induction upds generalizing r with
  | nil => cases hmem
  | cons u us ih =>
    rw [List.map_cons, List.nodup_cons] at hnd
    rcases List.mem_cons.mp hmem with rfl | hmem'
    · show updateFun us (if r.id = u0.id then { r with time := u0.newTime } else r)
        = { r with time := u0.newTime }
      rw [if_pos hid.symm]
      apply updateFun_of_not_mem
      intro v hv hc
      exact hnd.1 (List.mem_map.mpr ⟨v, hv, hc.trans hid.symm⟩)
    · have hu : u.id ≠ r.id := by
        intro hc
        apply hnd.1
        have hin : u0.id ∈ us.map (fun u => u.id) :=
          List.mem_map.mpr ⟨u0, hmem', rfl⟩
        rw [hid, ← hc] at hin
        exact hin
      show updateFun us (if r.id = u.id then { r with time := u.newTime } else r)
        = { r with time := u0.newTime }
      rw [if_neg (fun hc => hu hc.symm)]
      exact ih r hnd.2 hmem' hid

lemma mem_applyDeletes (dels : List Nat) (store : List Reminder) (r : Reminder) :
    r ∈ applyDeletes dels store ↔ r ∈ store ∧ ¬ r.id ∈ dels := by
  simp [applyDeletes, List.mem_filter]

lemma mem_dels_iff (now : Int) (store : List Reminder) (k : Nat) :
    k ∈ (sweepScan now store).2.1
      ↔ ∃ r ∈ store, r.time < now ∧ r.recurring = false ∧ r.id = k := by
  rw [sweepScan_dels]
  constructor
  · intro hk
    rcases List.mem_map.mp hk with ⟨r, hr, rfl⟩
    rcases List.mem_filter.mp hr with ⟨hrs, hcond⟩
    simp only [Bool.and_eq_true, decide_eq_true_eq, Bool.not_eq_true'] at hcond
    exact ⟨r, hrs, hcond.1, hcond.2, rfl⟩
  · rintro ⟨r, hrs, hdue, hrec, rfl⟩
    exact List.mem_map.mpr ⟨r, List.mem_filter.mpr ⟨hrs, by simp [hdue, hrec]⟩, rfl⟩

lemma mem_upds_iff (now : Int) (store : List Reminder) (u : RowToUpdate) :
    u ∈ (sweepScan now store).2.2
      ↔ ∃ r ∈ store, r.time < now ∧ r.recurring = true ∧
          u = ⟨r.id, r.time + secondsPerDay, r.who⟩ := by
  rw [sweepScan_upds]
  constructor
  · intro hk
    rcases List.mem_map.mp hk with ⟨r, hr, rfl⟩
    rcases List.mem_filter.mp hr with ⟨hrs, hcond⟩
    simp only [Bool.and_eq_true, decide_eq_true_eq] at hcond
    exact ⟨r, hrs, hcond.1, hcond.2, rfl⟩
  · rintro ⟨r, hrs, hdue, hrec, rfl⟩
    exact List.mem_map.mpr ⟨r, List.mem_filter.mpr ⟨hrs, by simp [hdue, hrec]⟩, rfl⟩

lemma upds_ids_nodup (now : Int) (store : List Reminder)
    (hnd : (store.map (fun r => r.id)).Nodup) :
    (((sweepScan now store).2.2).map (fun u => u.id)).Nodup := by
  rw [sweepScan_upds, List.map_map]
  exact hnd.sublist
    ((List.filter_sublist store).map (fun r => r.id))

lemma sweepTick_msgs (now : Int) (store : List Reminder) :
    (sweepTick now store).1
      = (store.filter (fun r => decide (r.time < now))).map
          (fun r => (r.who, r.toRemind)) :=
  sweepScan_msgs now store

lemma sweepTick_store (now : Int) (store : List Reminder) :
    (sweepTick now store).2
      = (applyDeletes (sweepScan now store).2.1 store).map
          (updateFun (sweepScan now store).2.2) :=
  applyUpdates_eq_map _ _

lemma sweepTick_removes (now : Int) (store : List Reminder)
    (_hnd : (store.map (fun r => r.id)).Nodup) (r : Reminder) (hr : r ∈ store)
    (hdue : r.time < now) (hrec : r.recurring = false) :
    ∀ x ∈ (sweepTick now store).2, x.id ≠ r.id := by
  intro x hx
  rw [sweepTick_store] at hx
  rcases List.mem_map.mp hx with ⟨y, hy, rfl⟩
  rw [updateFun_id]
  have hydel := (mem_applyDeletes _ _ _).mp hy
  intro hc
  apply hydel.2
  rw [hc]
  exact (mem_dels_iff now store r.id).mpr ⟨r, hr, hdue, hrec, rfl⟩

lemma sweepTick_updates_mem (now : Int) (store : List Reminder)
    (hnd : (store.map (fun r => r.id)).Nodup) (r : Reminder) (hr : r ∈ store)
    (hdue : r.time < now) (hrec : r.recurring = true) :
    { r with time := r.time + secondsPerDay } ∈ (sweepTick now store).2 := by
  rw [sweepTick_store]
  have hrdel : r ∈ applyDeletes (sweepScan now store).2.1 store := by
    rw [mem_applyDeletes]
    refine ⟨hr, ?_⟩
    intro hc
    rcases (mem_dels_iff now store r.id).mp hc with ⟨r', hr', hdue', hrec', hid'⟩
    have heq : r' = r := List.inj_on_of_nodup_map hnd hr' hr hid'
    rw [heq, hrec] at hrec'
    cases hrec'
  refine List.mem_map.mpr ⟨r, hrdel, ?_⟩
  exact updateFun_of_mem _ r ⟨r.id, r.time + secondsPerDay, r.who⟩
    (upds_ids_nodup now store hnd)
    ((mem_upds_iff now store _).mpr ⟨r, hr, hdue, hrec, rfl⟩) rfl

lemma sweepTick_keeps (now : Int) (store : List Reminder)
    (hnd : (store.map (fun r => r.id)).Nodup) (r : Reminder) (hr : r ∈ store)
    (hnotdue : ¬ r.time < now) :
    r ∈ (sweepTick now store).2 := by
  rw [sweepTick_store]
  have hrdel : r ∈ applyDeletes (sweepScan now store).2.1 store := by
    rw [mem_applyDeletes]
    refine ⟨hr, ?_⟩
    intro hc
    rcases (mem_dels_iff now store r.id).mp hc with ⟨r', hr', hdue', _, hid'⟩
    have heq : r' = r := List.inj_on_of_nodup_map hnd hr' hr hid'
    rw [heq] at hdue'
    exact hnotdue hdue'
  refine List.mem_map.mpr ⟨r, hrdel, ?_⟩
  apply updateFun_of_not_mem
  intro u hu hc
  rcases (mem_upds_iff now store u).mp hu with ⟨r', hr', hdue', hrec', rfl⟩
  have heq : r' = r := List.inj_on_of_nodup_map hnd hr' hr hc
  rw [heq] at hdue'
  exact hnotdue hdue'

/-- C1 counterexample: at a tick whose UTC instant equals the stored
time, the reminder is NOT dispatched — `currentTime.UTC().After(time)`
is strict — and the row remains in the store, contradicting "at or
before". -/
theorem c1_counterexample_boundary_not_dispatched :
    (sweepTick 100 [⟨1, "u", 100, "x", false⟩]).1 = [] ∧
    (sweepTick 100 [⟨1, "u", 100, "x", false⟩]).2 = [⟨1, "u", 100, "x", false⟩] :=
  ⟨rfl, rfl⟩

/-- C1 (amended): on every sweeper tick, exactly the pending reminders
whose stored time is strictly before the tick's current UTC instant
are dispatched; every fired non-recurring reminder is removed from the
store, every fired recurring reminder remains with its time advanced
by exactly one calendar day from its pre-fire value, and reminders not
yet due are unchanged. -/
theorem c1_sweep_correctness (now : Int) (store : List Reminder)
    (hnd : (store.map (fun r => r.id)).Nodup) :
    ((sweepTick now store).1
      = (store.filter (fun r => decide (r.time < now))).map
          (fun r => (r.who, r.toRemind))) ∧
    (∀ r ∈ store, r.time < now → r.recurring = false →
      ∀ x ∈ (sweepTick now store).2, x.id ≠ r.id) ∧
    (∀ r ∈ store, r.time < now → r.recurring = true →
      { r with time := r.time + secondsPerDay } ∈ (sweepTick now store).2) ∧
    (∀ r ∈ store, ¬ r.time < now → r ∈ (sweepTick now store).2) :=
  ⟨sweepTick_msgs now store,
   fun r hr hdue hrec => sweepTick_removes now store hnd r hr hdue hrec,
   fun r hr hdue hrec => sweepTick_updates_mem now store hnd r hr hdue hrec,
   fun r hr hnot => sweepTick_keeps now store hnd r hr hnot⟩

/-- Witness for `c1_sweep_correctness`: a three-row store with one due
one-shot, one due recurring and one not-yet-due reminder at tick
instant 100 dispatches exactly the two due rows. -/
theorem c1_sweep_correctness_witness :
    (([⟨1, "a", 0, "p", false⟩, ⟨2, "b", 50, "q", true⟩,
       ⟨3, "c", 200, "r", false⟩] : List Reminder).map (fun r => r.id)).Nodup ∧
    (sweepTick 100 [⟨1, "a", 0, "p", false⟩, ⟨2, "b", 50, "q", true⟩,
        ⟨3, "c", 200, "r", false⟩]).1
      = (([⟨1, "a", 0, "p", false⟩, ⟨2, "b", 50, "q", true⟩,
          ⟨3, "c", 200, "r", false⟩] : List Reminder).filter
            (fun r => decide (r.time < 100))).map (fun r => (r.who, r.toRemind)) :=
  ⟨by decide,
    (c1_sweep_correctness 100 [⟨1, "a", 0, "p", false⟩, ⟨2, "b", 50, "q", true⟩,
      ⟨3, "c", 200, "r", false⟩] (by decide)).1⟩

/-- C2 counterexample: a recurring reminder three days overdue is
dispatched at the tick at instant 259200, advanced by only one day (to
86400), and — still overdue — is dispatched AGAIN at the next tick one
minute later, contradicting "delivered exactly once ... not fired
again on subsequent ticks". -/
theorem c2_counterexample_recurring_refires :
    (sweepTick 259200 [⟨1, "u", 0, "x", true⟩]).1 = [("u", "x")] ∧
    (sweepTick 259200 [⟨1, "u", 0, "x", true⟩]).2 = [⟨1, "u", 86400, "x", true⟩] ∧
    (sweepTick 259260 [⟨1, "u", 86400, "x", true⟩]).1 = [("u", "x")] :=
  ⟨rfl, rfl, rfl⟩

/-- C2 (amended): a non-recurring reminder arbitrarily far in the past
is dispatched at the next tick and removed (no row with its id
remains, so it cannot fire again); a recurring reminder is advanced
only one calendar day per fire, so while it remains overdue after the
advance it is dispatched again at the following tick. -/
theorem c2_overdue_delivery (now : Int) (store : List Reminder)
    (hnd : (store.map (fun r => r.id)).Nodup) (r : Reminder) (hr : r ∈ store)
    (hdue : r.time < now) :
    (r.recurring = false →
      ((r.who, r.toRemind) ∈ (sweepTick now store).1 ∧
        ∀ x ∈ (sweepTick now store).2, x.id ≠ r.id)) ∧
    (r.recurring = true → ∀ nxt, r.time + secondsPerDay < nxt →
      (r.who, r.toRemind) ∈ (sweepTick nxt ((sweepTick now store).2)).1) := by
  constructor
  · intro hrec
    refine ⟨?_, sweepTick_removes now store hnd r hr hdue hrec⟩
    rw [sweepTick_msgs]
    exact List.mem_map.mpr ⟨r, List.mem_filter.mpr ⟨hr, by simp [hdue]⟩, rfl⟩
  · intro hrec nxt hlt
    have hmem := sweepTick_updates_mem now store hnd r hr hdue hrec
    rw [sweepTick_msgs]
    refine List.mem_map.mpr ⟨{ r with time := r.time + secondsPerDay }, ?_, rfl⟩
    exact List.mem_filter.mpr ⟨hmem, by simpa using hlt⟩

/-- Witness for `c2_overdue_delivery`: the recurring reminder three
days overdue fires again at the tick one minute after the first. -/
theorem c2_overdue_delivery_witness :
    (([⟨1, "u", 0, "x", true⟩] : List Reminder).map (fun r => r.id)).Nodup ∧
    ((0 : Int) < 259200) ∧
    ("u", "x") ∈ (sweepTick 259260 ((sweepTick 259200 [⟨1, "u", 0, "x", true⟩]).2)).1 :=
  ⟨by decide, by decide,
    (c2_overdue_delivery 259200 [⟨1, "u", 0, "x", true⟩] (by decide)
      ⟨1, "u", 0, "x", true⟩ (by simp) (by decide)).2 rfl 259260 (by decide)⟩

end Gopnik
